import Mathlib

/-! Verification development for `stdutil.py`, a terminal process-inspection
utility.  The Python source is shallowly embedded: reads from the process
pseudo-filesystem are modelled by explicit source values (`Src`, `LineSrc`,
`FdSrc`), numeric fields use `Int` / `Rat` (Python's arbitrary-precision
integers and its float divisions, which are exact for the page-size and
clock-tick divisors involved), and each interactive loop is modelled by its
per-key step function over an explicit state record. -/

/-- Python `str.lower()` applied characterwise, as used by `search_processes`.
Implemented on the character list so that it evaluates by kernel reduction. -/
def pyLower (s : String) : String := ⟨s.data.map Char.toLower⟩

/-- Python `str.strip()`: remove leading and trailing whitespace. -/
def pyStrip (s : String) : String :=
  ⟨((s.data.dropWhile Char.isWhitespace).reverse.dropWhile Char.isWhitespace).reverse⟩

/-- Python `str.rstrip()`: remove trailing whitespace. -/
def pyRstrip (s : String) : String := ⟨(s.data.reverse.dropWhile Char.isWhitespace).reverse⟩

/-- Python `.replace(chr(0), " ")` as applied to the raw command-line buffer. -/
def nulToSpace (s : String) : String := ⟨s.data.map fun c => if c = '\x00' then ' ' else c⟩

/-- Contiguous-sublist test on character lists: `strContainsCore needle hay`
is true when `needle` occurs as a contiguous run inside `hay`. -/
def strContainsCore : List Char → List Char → Bool
  | needle, [] => needle.isEmpty
  | needle, c :: rest => List.isPrefixOf needle (c :: rest) || strContainsCore needle rest

/-- Python `needle in hay` substring membership on strings. -/
def strContains (hay needle : String) : Bool := strContainsCore needle.data hay.data

/-- `search_processes` from `stdutil.py`: lower the term once, then keep the
processes whose pid string or command string contains it case-insensitively. -/
def search_processes (processes : List (String × String)) (search_term : String) :
    List (String × String) :=
  let t := pyLower search_term
  processes.filter fun proc => strContains (pyLower proc.1) t || strContains (pyLower proc.2) t

/-- Result of reading one text source under `/proc/<pid>`: the path may be
absent (`os.path.exists` is false), the read or subsequent parse may raise
(with a Python exception message), or it may yield a value. -/
inductive Src (α : Type) where
  | absent : Src α
  | failing (msg : String) : Src α
  | ok (content : α) : Src α
deriving DecidableEq

/-- A line-iterated read (`for line in f`), which can fail after already
having yielded a prefix of the lines. -/
inductive LineSrc where
  | absent : LineSrc
  | failing (got : List String) (msg : String) : LineSrc
  | ok (lines : List String) : LineSrc
deriving DecidableEq

/-- Equality of `Except` results is decidable when both components are. -/
instance {ε α : Type} [DecidableEq ε] [DecidableEq α] : DecidableEq (Except ε α) := fun a b =>
  match a, b with
  | .ok x, .ok y =>
    match decEq x y with
    | isTrue h => isTrue (congrArg Except.ok h)
    | isFalse h => isFalse fun hh => h (Except.ok.inj hh)
  | .error x, .error y =>
    match decEq x y with
    | isTrue h => isTrue (congrArg Except.error h)
    | isFalse h => isFalse fun hh => h (Except.error.inj hh)
  | .ok _, .error _ => isFalse fun hh => Except.noConfusion hh
  | .error _, .ok _ => isFalse fun hh => Except.noConfusion hh

/-- The `/proc/<pid>/fd` directory: absent, unreadable with `PermissionError`,
unreadable with some other exception, or a listing.  Each listed entry carries
the name of the descriptor and the result of `os.readlink` on it. -/
inductive FdSrc where
  | absent : FdSrc
  | permDenied (msg : String) : FdSrc
  | failing (msg : String) : FdSrc
  | ok (entries : List (String × Except String String)) : FdSrc
deriving DecidableEq

/-- True exactly when the source read raises an exception. -/
def Src.failsB {α : Type} : Src α → Bool
  | .failing _ => true
  | _ => false

/-- True exactly when listing the descriptor directory raises an exception
that is not a `PermissionError` (the only kind the code handles locally). -/
def FdSrc.listFailsB : FdSrc → Bool
  | .failing _ => true
  | _ => false

/-- One process's view of the pseudo-filesystem and platform constants, the
environment that `get_proc_info` and `get_section_content` read from. -/
structure ProcFS where
  pid : String := "1"
  system : String := "Linux"
  procExists : Bool := true
  status : Src (List String) := .absent
  cmdline : Src String := .absent
  statm : Src (List Int) := .absent
  stat : Src (List Int) := .absent
  uptime : Src ℚ := .absent
  pageSize : ℕ := 4096
  clkTck : ℕ := 100
  fd : FdSrc := .absent
  io_info : Src (List String) := .absent
  maps : LineSrc := .absent
  cwd : Except String String := .error "No such file or directory"
  exe : Except String String := .error "No such file or directory"
  limits : LineSrc := .absent

/-- The nested memory mapping built from `/proc/<pid>/statm` (values in KB). -/
structure MemBlock where
  total_program_size : ℚ
  resident_set_size : ℚ
  shared_pages : ℚ
  text : ℚ
  data_stack : ℚ
deriving DecidableEq

/-- The nested CPU mapping built from `/proc/<pid>/stat` (values in seconds). -/
structure CpuBlock where
  user_time : ℚ
  system_time : ℚ
  start_time : ℚ
deriving DecidableEq

/-- The value stored under `fd_count`: an exact count, or the string marker
`"(Permission denied)"`. -/
inductive FdCountVal where
  | count (n : ℕ) : FdCountVal
  | permissionDenied : FdCountVal
deriving DecidableEq

/-- The snapshot dictionary returned by `get_proc_info`; each Python dict key
becomes a field, absent keys are `none`.  The colon-parsed status and I/O
blocks are kept as association lists in insertion order. -/
structure ProcInfo where
  statusFields : List (String × String) := []
  cmdline : Option String := none
  memory : Option MemBlock := none
  cpu : Option CpuBlock := none
  uptime : Option ℚ := none
  fd_count : Option FdCountVal := none
  fd_details : Option (List (String × String)) := none
  io_info : Option (Sum (List (String × String)) String) := none
  error : Option String := none
deriving DecidableEq

/-- Python `line.split(":", 1)` when `":" in line`: the text before the first
colon and the text after it. -/
def splitAtFirstColon : List Char → Option (List Char × List Char)
  | [] => none
  | c :: rest =>
    if c = ':' then some ([], rest)
    else (splitAtFirstColon rest).map fun p => (c :: p.1, p.2)

/-- Parse a colon-delimited key/value block the way `get_proc_info` does for
the status and I/O sources: keep lines containing a colon, split at the first
colon, strip both sides. -/
def parseColonBlock (lines : List String) : List (String × String) :=
  lines.filterMap fun line =>
    (splitAtFirstColon line.data).map fun p => (pyStrip ⟨p.1⟩, pyStrip ⟨p.2⟩)

/-- Step outcome while collecting: the snapshot so far, and the message of the
first uncaught exception if one was raised (Python's single `try` block). -/
abbrev CollectState := ProcInfo × Option String

/-- Run the next collection step only if no exception has been raised yet. -/
def chainStep (r : CollectState) (f : ProcInfo → CollectState) : CollectState :=
  match r.2 with
  | some _ => r
  | none => f r.1

/-- Status block step of `get_proc_info`. -/
def stepStatus (fs : ProcFS) (i : ProcInfo) : CollectState :=
  match fs.status with
  | .absent => (i, none)
  | .failing m => (i, some m)
  | .ok lines => ({ i with statusFields := parseColonBlock lines }, none)

/-- Command-line step of `get_proc_info`: NUL bytes become spaces, then strip. -/
def stepCmdline (fs : ProcFS) (i : ProcInfo) : CollectState :=
  match fs.cmdline with
  | .absent => (i, none)
  | .failing m => (i, some m)
  | .ok s => ({ i with cmdline := some (pyStrip (nulToSpace s)) }, none)

/-- Memory step of `get_proc_info`: with at least 7 `statm` fields, scale the
page-granular values by the page size and convert to kilobytes; the sixth
field (index 5) is data+stack, index 4 is skipped. -/
def stepMemory (fs : ProcFS) (i : ProcInfo) : CollectState :=
  match fs.statm with
  | .absent => (i, none)
  | .failing m => (i, some m)
  | .ok vals =>
    match vals with
    | v0 :: v1 :: v2 :: v3 :: _v4 :: v5 :: _v6 :: _ =>
      ({ i with memory := some {
          total_program_size := (v0 : ℚ) * (fs.pageSize : ℚ) / 1024,
          resident_set_size := (v1 : ℚ) * (fs.pageSize : ℚ) / 1024,
          shared_pages := (v2 : ℚ) * (fs.pageSize : ℚ) / 1024,
          text := (v3 : ℚ) * (fs.pageSize : ℚ) / 1024,
          data_stack := (v5 : ℚ) * (fs.pageSize : ℚ) / 1024 } }, none)
    | _ => (i, none)

/-- CPU step of `get_proc_info`: with at least 44 `stat` fields, divide the
tick counts by the clock rate; then read `/proc/uptime` (an unguarded open,
so its failure raises) and derive the process age. -/
def stepCpu (fs : ProcFS) (i : ProcInfo) : CollectState :=
  match fs.stat with
  | .absent => (i, none)
  | .failing m => (i, some m)
  | .ok parts =>
    if 44 ≤ parts.length then
      let cpuVal : CpuBlock := {
        user_time := ((parts.getD 13 0 : ℤ) : ℚ) / (fs.clkTck : ℚ),
        system_time := ((parts.getD 14 0 : ℤ) : ℚ) / (fs.clkTck : ℚ),
        start_time := ((parts.getD 21 0 : ℤ) : ℚ) / (fs.clkTck : ℚ) }
      let i1 := { i with cpu := some cpuVal }
      match fs.uptime with
      | .absent => (i1, some "No such file or directory: /proc/uptime")
      | .failing m => (i1, some m)
      | .ok u => ({ i1 with uptime := some (u - ((parts.getD 21 0 : ℤ) : ℚ) / (fs.clkTck : ℚ)) }, none)
    else (i, none)

/-- Descriptor step of `get_proc_info`: exact count of all entries, resolved
detail pairs for the first 10 entries only (entries whose `readlink` raises
are skipped), `PermissionError` on the listing handled locally, any other
listing exception propagating. -/
def stepFd (fs : ProcFS) (i : ProcInfo) : CollectState :=
  match fs.fd with
  | .absent => (i, none)
  | .permDenied _ => ({ i with fd_count := some .permissionDenied }, none)
  | .failing m => (i, some m)
  | .ok entries =>
    ({ i with
        fd_count := some (.count entries.length),
        fd_details := some ((entries.take 10).filterMap fun p =>
          match p.2 with
          | .ok t => some (p.1, t)
          | .error _ => none) }, none)

/-- I/O statistics step of `get_proc_info`: any read failure is caught locally
and stored as the sentinel string. -/
def stepIo (fs : ProcFS) (i : ProcInfo) : CollectState :=
  match fs.io_info with
  | .absent => (i, none)
  | .failing _ => ({ i with io_info := some (.inr "(Unable to read I/O statistics)") }, none)
  | .ok lines => ({ i with io_info := some (.inl (parseColonBlock lines)) }, none)

/-- The body of the single `try` block of `get_proc_info`: the six collection
steps in source order, stopping at the first uncaught exception. -/
def collectChain (fs : ProcFS) : CollectState :=
  chainStep (chainStep (chainStep (chainStep (chainStep
    (stepStatus fs {}) (stepCmdline fs)) (stepMemory fs)) (stepCpu fs)) (stepFd fs)) (stepIo fs)

/-- `get_proc_info` from `stdutil.py`: platform guard, existence guard, then
the six collection steps inside one `try` whose handler records the first
uncaught exception under the `error` key. -/
def get_proc_info (fs : ProcFS) : ProcInfo :=
  if fs.system ≠ "Linux" then
    { error := some "This function is only available on Linux" }
  else if fs.procExists = false then
    { error := some ("Process " ++ fs.pid ++ " no longer exists") }
  else
    match (collectChain fs).2 with
    | none => (collectChain fs).1
    | some m =>
      { (collectChain fs).1 with error := some ("Error reading process information: " ++ m) }

/-- `get_section_content` from `stdutil.py`: resolve one advanced-info
category to its line sequence.  `maps` and `limits` iterate the file
`rstrip`-ing each line and append an error line if the read fails mid-way;
`fd` formats one line per descriptor (error lines inline); `cwd` and `exe`
are a single `readlink` with no existence pre-check; unknown ids yield `[]`. -/
def get_section_content (fs : ProcFS) (section_id : String) : List String :=
  if section_id = "maps" then
    match fs.maps with
    | .absent => ["maps not available"]
    | .failing got m => got.map pyRstrip ++ ["Error reading maps: " ++ m]
    | .ok lines => lines.map pyRstrip
  else if section_id = "fd" then
    match fs.fd with
    | .absent => ["fd not available"]
    | .permDenied m => ["Error reading fd: " ++ m]
    | .failing m => ["Error reading fd: " ++ m]
    | .ok entries => entries.map fun p =>
        match p.2 with
        | .ok t => "fd " ++ p.1 ++ ": " ++ t
        | .error m => "fd " ++ p.1 ++ ": Error: " ++ m
  else if section_id = "cwd" then
    match fs.cwd with
    | .ok path => [path]
    | .error m => ["Error: " ++ m]
  else if section_id = "exe" then
    match fs.exe with
    | .ok path => [path]
    | .error m => ["Error: " ++ m]
  else if section_id = "limits" then
    match fs.limits with
    | .absent => ["limits not available"]
    | .failing got m => got.map pyRstrip ++ ["Error reading limits: " ++ m]
    | .ok lines => lines.map pyRstrip
  else []

/-- The five fixed sections of the advanced-info screen, in display order. -/
def adv_sections : List (String × String) :=
  [("Memory Maps", "maps"), ("Open Files/Sockets", "fd"),
   ("Current Working Directory", "cwd"), ("Executable Path", "exe"),
   ("Resource Limits", "limits")]

/-- The `max_lines` table of `show_advanced_info_tui`: the content length of
each section, computed once at screen entry, in section order. -/
def advMaxLines (fs : ProcFS) : List ℤ :=
  adv_sections.map fun s => ((get_section_content fs s.2).length : ℤ)

/-- Mutable state of the `show_advanced_info_tui` key loop. -/
structure AdvState where
  selected : ℕ
  scroll : ℤ
  collapsed : List Bool
deriving DecidableEq

/-- Key events recognised by the advanced-info loop (`q`/ESC ends the loop
and is a no-op on the state). -/
inductive AdvKey where
  | up : AdvKey
  | down : AdvKey
  | toggle : AdvKey
  | pgdn : AdvKey
  | pgup : AdvKey
  | quitKey : AdvKey
  | other : AdvKey
deriving DecidableEq

/-- Initial state of the advanced-info screen: first section selected, scroll
zero, all five sections expanded. -/
def advInit : AdvState := ⟨0, 0, [false, false, false, false, false]⟩

/-- One iteration of the `show_advanced_info_tui` key loop, acting on the
state exactly as the Python branches do; `lens` is the `max_lines` table. -/
def advStep (lens : List ℤ) (s : AdvState) (k : AdvKey) : AdvState :=
  match k with
  | .up => if 0 < s.selected then { s with selected := s.selected - 1, scroll := 0 } else s
  | .down =>
    if s.selected < adv_sections.length - 1 then
      { s with selected := s.selected + 1, scroll := 0 }
    else s
  | .toggle =>
    { s with collapsed := s.collapsed.set s.selected (!(s.collapsed.getD s.selected false)),
             scroll := 0 }
  | .pgdn =>
    if s.collapsed.getD s.selected false = false then
      { s with scroll := min (s.scroll + 5) (lens.getD s.selected 0 - 1) }
    else s
  | .pgup =>
    if s.collapsed.getD s.selected false = false then
      { s with scroll := max 0 (s.scroll - 5) }
    else s
  | .quitKey => s
  | .other => s

/-- The advanced-info loop over a whole key sequence, from the initial state. -/
def runAdv (lens : List ℤ) (keys : List AdvKey) : AdvState :=
  keys.foldl (advStep lens) advInit

/-- The main-menu item list of `show_main_menu`. -/
def menu_items : List String := ["Processes", "Exit"]

/-- Key events recognised by the main-menu loop. -/
inductive MenuKey where
  | up : MenuKey
  | down : MenuKey
  | enter : MenuKey
  | quitKey : MenuKey
  | other : MenuKey
deriving DecidableEq

/-- What one main-menu iteration does besides moving the selection. -/
inductive MenuAction where
  | stay : MenuAction
  | openProcesses : MenuAction
  | exitApp : MenuAction
deriving DecidableEq

/-- One iteration of the `show_main_menu` key loop: the new selection index
and the action taken.  Mirrors the Python branches, including the `Enter`
handler that compares the selection against 0 and against 2. -/
def show_main_menu_step (selected_idx : ℕ) (k : MenuKey) : ℕ × MenuAction :=
  match k with
  | .up => if 0 < selected_idx then (selected_idx - 1, .stay) else (selected_idx, .stay)
  | .down =>
    if selected_idx < menu_items.length - 1 then (selected_idx + 1, .stay)
    else (selected_idx, .stay)
  | .enter =>
    if selected_idx = 0 then (selected_idx, .openProcesses)
    else if selected_idx = 2 then (selected_idx, .exitApp)
    else (selected_idx, .stay)
  | .quitKey => (selected_idx, .exitApp)
  | .other => (selected_idx, .stay)

/-- How a monitor session can end (`Detached`, `Stopped`, `Failed`). -/
inductive SessionEnd where
  | detached : SessionEnd
  | stopped : SessionEnd
  | failed : SessionEnd
deriving DecidableEq

/-- Events observed by one iteration of the `monitor_io_streams` loop. -/
inductive MonEvent where
  | targetGone : MonEvent
  | traceLine (s : String) : MonEvent
  | userInput (s : String) : MonEvent
  | keyboardInterrupt : MonEvent
  | subprocessErr (msg : String) : MonEvent
deriving DecidableEq

/-- The tracer subprocess handle: whether it is still running, and whether it
responds to `terminate()` within the 2-second `wait` grace period. -/
structure Tracer where
  running : Bool
  respondsToTerminate : Bool
deriving DecidableEq

/-- How the `finally` block ended the tracer: graceful terminate, or
`kill()` after an unresponsive terminate. -/
inductive TermMethod where
  | graceful : TermMethod
  | forced : TermMethod
deriving DecidableEq

/-- The `finally` block of `monitor_io_streams`: ask the tracer to terminate
with a bounded wait, and force-kill it if that fails. -/
def cleanupTracer (t : Tracer) : Tracer × TermMethod :=
  if t.respondsToTerminate then ({ t with running := false }, .graceful)
  else ({ t with running := false }, .forced)

/-- The streaming loop of `monitor_io_streams`: each iteration first probes
target liveness (break when gone), trace lines and user input keep looping,
and a `KeyboardInterrupt` or `subprocess.SubprocessError` ends the session
through the matching handler.  `none` means the event list ran out with the
loop still going. -/
def runStreamLoop : List MonEvent → Option SessionEnd
  | [] => none
  | .targetGone :: _ => some .detached
  | .keyboardInterrupt :: _ => some .stopped
  | .subprocessErr _ :: _ => some .failed
  | .traceLine _ :: rest => runStreamLoop rest
  | .userInput _ :: rest => runStreamLoop rest

/-- How one call to `monitor_io_streams` returns. -/
inductive MonOutcome where
  | noStrace : MonOutcome
  | noTarget : MonOutcome
  | spawnFailed : MonOutcome
  | session (ended : SessionEnd) (tracer : Tracer) (method : TermMethod) : MonOutcome
deriving DecidableEq

/-- `monitor_io_streams` from `stdutil.py`: probe for the tracer utility,
probe target existence, spawn the tracer (a spawn failure raises
`SubprocessError`, caught by the handler with no handle for `finally` to
clean), then drive the streaming loop; on every exit from the loop the
`finally` block runs `cleanupTracer` on the spawned handle. -/
def monitor_io_streams (straceInstalled targetExists : Bool)
    (spawn : Option Tracer) (events : List MonEvent) : Option MonOutcome :=
  if straceInstalled = false then some .noStrace
  else if targetExists = false then some .noTarget
  else
    match spawn with
    | none => some .spawnFailed
    | some t =>
      match runStreamLoop events with
      | none => none
      | some e =>
        match cleanupTracer t with
        | (tFinal, m) => some (.session e tFinal m)

/-- True when reading `/proc/uptime` would raise (absent or failing). -/
def uptimeFailsB : Src ℚ → Bool
  | .ok _ => false
  | _ => true

/-- True exactly when the CPU step of `get_proc_info` raises: a failing
`stat` read, or a `stat` record long enough to reach the unguarded
`/proc/uptime` open while that open would raise. -/
def cpuStepFails (fs : ProcFS) : Bool :=
  match fs.stat with
  | .absent => false
  | .failing _ => true
  | .ok parts => if 44 ≤ parts.length then uptimeFailsB fs.uptime else false

/-- A process with a synthetic page-granular memory record. -/
def c8fs : ProcFS := { statm := .ok [10, 5, 2, 1, 0, 3, 0] }

/-- A process with three descriptors, one of which cannot be resolved. -/
def c9fs : ProcFS :=
  { fd := .ok [("0", .ok "/dev/pts/1"), ("1", .error "denied"), ("2", .ok "socket:[77]")] }

/-- A process whose `maps` file exists and is readable but empty, as for a
zombie process. -/
def c5fs : ProcFS := { maps := .ok [] }

/-- The scroll invariant of the advanced-info screen: a valid selection and a
scroll offset within the selected section's content range. -/
def advInv (lens : List ℤ) (s : AdvState) : Prop :=
  s.selected < 5 ∧ 0 ≤ s.scroll ∧ s.scroll ≤ lens.getD s.selected 0 - 1

/-- A process with one empty-but-readable section (`maps`) and the other four
sections resolving to one line each. -/
def c4fs : ProcFS :=
  { maps := .ok [], cwd := .ok "/", exe := .ok "/bin/sh",
    fd := .ok [("0", .ok "/dev/null")], limits := .ok ["Max cpu time"] }

/-- Every key event the main-menu loop distinguishes. -/
def allMenuKeys : List MenuKey := [.up, .down, .enter, .quitKey, .other]

/-- Filtering twice with one predicate is the same as filtering once. -/
theorem filter_twice (p : α → Bool) (l : List α) :
    List.filter p (List.filter p l) = List.filter p l := by
  induction l with
  | nil => rfl
  | cons a l ih =>
    by_cases h : p a = true
    · simp [List.filter_cons, h, ih]
    · simp [List.filter_cons, h, ih]

/-- The empty character list is contained in every character list. -/
theorem strContainsCore_nil (hay : List Char) : strContainsCore [] hay = true := by
  cases hay <;> simp [strContainsCore, List.isEmpty, List.isPrefixOf]

/-- C7: `search_processes` is idempotent (`search (search P t) t = search P t`),
its result is a sublist of the input (the input is only filtered, never
mutated), and a pair is in the result exactly when it is in `P` and its pid or
command contains the term case-insensitively. -/
theorem C7_search_idempotent_subset (P : List (String × String)) (t : String) :
    search_processes (search_processes P t) t = search_processes P t ∧
    (search_processes P t).Sublist P ∧
    (∀ p, p ∈ search_processes P t ↔ p ∈ P ∧
      (strContains (pyLower p.1) (pyLower t) || strContains (pyLower p.2) (pyLower t)) = true) := by
  refine ⟨?_, ?_, ?_⟩
  · simp only [search_processes]
    exact filter_twice _ _
  · simp only [search_processes]
    exact List.filter_sublist _
  · intro p
    simp [search_processes, List.mem_filter]

/-- Witness for C7 at a concrete process list and term. -/
theorem C7_search_idempotent_subset_witness :
    search_processes (search_processes [("12", "vim"), ("30", "bash")] "vi") "vi" =
      search_processes [("12", "vim"), ("30", "bash")] "vi" :=
  (C7_search_idempotent_subset [("12", "vim"), ("30", "bash")] "vi").1

/-- C10: with the empty search term every process matches, so
`search_processes P ""` returns the whole list `P`. -/
theorem C10_empty_term_identity (P : List (String × String)) :
    search_processes P "" = P := by
  simp only [search_processes]
  apply List.filter_eq_self.mpr
  intro a _
  have h0 : pyLower "" = "" := rfl
  rw [h0]
  simp [strContains, strContainsCore_nil]

/-- A chain step with no pending exception runs its collection step. -/
theorem chainStep_none (r : CollectState) (f : ProcInfo → CollectState)
    (h : r.2 = none) : chainStep r f = f r.1 := by
  rcases r with ⟨i, e⟩
  cases e
  · rfl
  · exact absurd h (by simp)

/-- A projection untouched by a collection step is untouched by chaining it. -/
theorem chainStep_proj {α : Type} (g : ProcInfo → α) (r : CollectState)
    (f : ProcInfo → CollectState) (hf : ∀ i, g ((f i).1) = g i) :
    g ((chainStep r f).1) = g (r.1) := by
  rcases r with ⟨i, e⟩
  cases e
  · exact hf i
  · rfl

/-- The status step raises only when the status source read raises. -/
theorem stepStatus_err (fs : ProcFS) (i : ProcInfo) (h : fs.status.failsB = false) :
    (stepStatus fs i).2 = none := by
  rcases hs : fs.status with _ | m | l
  · simp [stepStatus, hs]
  · rw [hs] at h; exact absurd h (by simp [Src.failsB])
  · simp [stepStatus, hs]

/-- The command-line step raises only when that source read raises. -/
theorem stepCmdline_err (fs : ProcFS) (i : ProcInfo) (h : fs.cmdline.failsB = false) :
    (stepCmdline fs i).2 = none := by
  rcases hs : fs.cmdline with _ | m | s
  · simp [stepCmdline, hs]
  · rw [hs] at h; exact absurd h (by simp [Src.failsB])
  · simp [stepCmdline, hs]

/-- The memory step raises only when the `statm` read raises. -/
theorem stepMemory_err (fs : ProcFS) (i : ProcInfo) (h : fs.statm.failsB = false) :
    (stepMemory fs i).2 = none := by
  rcases hs : fs.statm with _ | m | vals
  · simp [stepMemory, hs]
  · rw [hs] at h; exact absurd h (by simp [Src.failsB])
  · rcases vals with _ | ⟨v0, _ | ⟨v1, _ | ⟨v2, _ | ⟨v3, _ | ⟨v4, _ | ⟨v5, _ | ⟨v6, rest⟩⟩⟩⟩⟩⟩⟩ <;>
      simp [stepMemory, hs]

/-- The CPU step raises exactly when `cpuStepFails` says so. -/
theorem stepCpu_err (fs : ProcFS) (i : ProcInfo) (h : cpuStepFails fs = false) :
    (stepCpu fs i).2 = none := by
  rcases hs : fs.stat with _ | m | parts
  · simp [stepCpu, hs]
  · simp [cpuStepFails, hs] at h
  · simp only [cpuStepFails, hs] at h
    by_cases hl : 44 ≤ parts.length
    · rw [if_pos hl] at h
      rcases hu : fs.uptime with _ | m | u
      · rw [hu] at h; exact absurd h (by simp [uptimeFailsB])
      · rw [hu] at h; exact absurd h (by simp [uptimeFailsB])
      · simp [stepCpu, hs, if_pos hl, hu]
    · simp [stepCpu, hs, if_neg hl]

/-- The descriptor step raises exactly when the directory listing raises a
non-`PermissionError` exception. -/
theorem stepFd_err (fs : ProcFS) (i : ProcInfo) (h : fs.fd.listFailsB = false) :
    (stepFd fs i).2 = none := by
  rcases hs : fs.fd with _ | m | m | entries
  · simp [stepFd, hs]
  · simp [stepFd, hs]
  · rw [hs] at h; exact absurd h (by simp [FdSrc.listFailsB])
  · simp [stepFd, hs]

/-- The I/O step never raises: every failure is caught locally. -/
theorem stepIo_err (fs : ProcFS) (i : ProcInfo) : (stepIo fs i).2 = none := by
  rcases hs : fs.io_info with _ | m | lines <;> simp [stepIo, hs]

/-- The CPU step leaves `memory` and `error` untouched. -/
theorem stepCpu_memory (fs : ProcFS) (i : ProcInfo) :
    ((stepCpu fs i).1).memory = i.memory ∧ ((stepCpu fs i).1).error = i.error := by
  rcases hs : fs.stat with _ | m | parts
  · simp [stepCpu, hs]
  · simp [stepCpu, hs]
  · by_cases hl : 44 ≤ parts.length
    · rcases hu : fs.uptime with _ | m | u <;> simp [stepCpu, hs, if_pos hl, hu]
    · simp [stepCpu, hs, if_neg hl]

/-- The descriptor step leaves `memory` and `error` untouched. -/
theorem stepFd_memory (fs : ProcFS) (i : ProcInfo) :
    ((stepFd fs i).1).memory = i.memory ∧ ((stepFd fs i).1).error = i.error := by
  rcases hs : fs.fd with _ | m | m | entries <;> simp [stepFd, hs]

/-- The I/O step leaves `memory`, the descriptor fields and `error` untouched. -/
theorem stepIo_keeps (fs : ProcFS) (i : ProcInfo) :
    ((stepIo fs i).1).memory = i.memory ∧ ((stepIo fs i).1).error = i.error ∧
    ((stepIo fs i).1).fd_count = i.fd_count ∧ ((stepIo fs i).1).fd_details = i.fd_details := by
  rcases hs : fs.io_info with _ | m | lines <;> simp [stepIo, hs]

/-- On Linux with the process present, any projection that ignores the
`error` field passes from `get_proc_info` to the raw collection chain. -/
theorem get_proc_info_proj {α : Type} (fs : ProcFS) (h1 : fs.system = "Linux")
    (h2 : fs.procExists = true) (g : ProcInfo → α)
    (hg : ∀ i e, g { i with error := e } = g i) :
    g (get_proc_info fs) = g ((collectChain fs).1) := by
  unfold get_proc_info
  rw [h1, h2]
  simp only [ne_eq, not_true_eq_false, if_false, Bool.true_eq_false]
  split
  · rfl
  · exact hg _ _

/-- On Linux with the process present and no step raising, `get_proc_info`
returns the chain's snapshot unchanged. -/
theorem get_proc_info_of_chain_ok (fs : ProcFS) (h1 : fs.system = "Linux")
    (h2 : fs.procExists = true) (h3 : (collectChain fs).2 = none) :
    get_proc_info fs = (collectChain fs).1 := by
  unfold get_proc_info
  rw [h1, h2]
  simp only [ne_eq, not_true_eq_false, if_false, Bool.true_eq_false, h3]

/-- With none of the first five steps raising, the chain is the plain
left-to-right composition of the six steps. -/
theorem collectChain_eq (fs : ProcFS) (hst : fs.status.failsB = false)
    (hcl : fs.cmdline.failsB = false) (hsm : fs.statm.failsB = false)
    (hcpu : cpuStepFails fs = false) (hfd : fs.fd.listFailsB = false) :
    collectChain fs =
      stepIo fs ((stepFd fs ((stepCpu fs ((stepMemory fs ((stepCmdline fs
        ((stepStatus fs {}).1)).1)).1)).1)).1) := by
  unfold collectChain
  rw [chainStep_none _ _ (stepStatus_err fs {} hst)]
  rw [chainStep_none _ _ (stepCmdline_err fs _ hcl)]
  rw [chainStep_none _ _ (stepMemory_err fs _ hsm)]
  rw [chainStep_none _ _ (stepCpu_err fs _ hcpu)]
  rw [chainStep_none _ _ (stepFd_err fs _ hfd)]

/-- C6: when the process's `/proc` entry is gone, `get_proc_info` returns the
not-found snapshot immediately: only the `error` field is populated and no
collection step contributes anything. -/
theorem C6_notfound_short_circuit (fs : ProcFS) (h1 : fs.system = "Linux")
    (h2 : fs.procExists = false) :
    get_proc_info fs = { error := some ("Process " ++ fs.pid ++ " no longer exists") } := by
  unfold get_proc_info
  rw [h1, h2]
  simp

/-- Witness for C6 at a concrete vanished pid. -/
theorem C6_notfound_short_circuit_witness :
    get_proc_info { pid := "4242", procExists := false } =
      { error := some "Process 4242 no longer exists" } :=
  C6_notfound_short_circuit { pid := "4242", procExists := false } rfl rfl

/-- C8: with a memory record of at least 7 numeric fields and the earlier
steps not raising, every reported memory field equals the record value times
the platform page size divided by 1024, exactly, with data+stack taken from
the record's sixth field (index 5; index 4 is skipped). -/
theorem C8_memory_exact (fs : ProcFS) (h1 : fs.system = "Linux") (h2 : fs.procExists = true)
    (hst : fs.status.failsB = false) (hcl : fs.cmdline.failsB = false)
    (v0 v1 v2 v3 v4 v5 v6 : ℤ) (rest : List ℤ)
    (hsm : fs.statm = Src.ok (v0 :: v1 :: v2 :: v3 :: v4 :: v5 :: v6 :: rest)) :
    (get_proc_info fs).memory = some {
      total_program_size := (v0 : ℚ) * (fs.pageSize : ℚ) / 1024,
      resident_set_size := (v1 : ℚ) * (fs.pageSize : ℚ) / 1024,
      shared_pages := (v2 : ℚ) * (fs.pageSize : ℚ) / 1024,
      text := (v3 : ℚ) * (fs.pageSize : ℚ) / 1024,
      data_stack := (v5 : ℚ) * (fs.pageSize : ℚ) / 1024 } := by
  refine Eq.trans (get_proc_info_proj fs h1 h2 (fun i => i.memory) (fun i e => rfl)) ?_
  unfold collectChain
  refine Eq.trans (chainStep_proj (fun i => i.memory) _ _ (fun i => (stepIo_keeps fs i).1)) ?_
  refine Eq.trans (chainStep_proj (fun i => i.memory) _ _ (fun i => (stepFd_memory fs i).1)) ?_
  refine Eq.trans (chainStep_proj (fun i => i.memory) _ _ (fun i => (stepCpu_memory fs i).1)) ?_
  rw [chainStep_none _ _ (stepStatus_err fs {} hst)]
  rw [chainStep_none _ _ (stepCmdline_err fs _ hcl)]
  simp [stepMemory, hsm]

/-- Witness for C8 at the synthetic memory record. -/
theorem C8_memory_exact_witness :
    (get_proc_info c8fs).memory = some {
      total_program_size := ((10 : ℤ) : ℚ) * ((4096 : ℕ) : ℚ) / 1024,
      resident_set_size := ((5 : ℤ) : ℚ) * ((4096 : ℕ) : ℚ) / 1024,
      shared_pages := ((2 : ℤ) : ℚ) * ((4096 : ℕ) : ℚ) / 1024,
      text := ((1 : ℤ) : ℚ) * ((4096 : ℕ) : ℚ) / 1024,
      data_stack := ((3 : ℤ) : ℚ) * ((4096 : ℕ) : ℚ) / 1024 } :=
  C8_memory_exact c8fs rfl rfl rfl rfl 10 5 2 1 0 3 0 [] rfl

/-- C9: with the earlier steps not raising, a readable descriptor directory
yields `fd_count` equal to the exact number of enumerated descriptors and a
detail list of at most 10 pairs drawn only from the first 10 enumerated
entries; a `PermissionError` on the listing yields the distinct
permission-denied marker instead of a count. -/
theorem C9_fd_count_details (fs : ProcFS) (h1 : fs.system = "Linux") (h2 : fs.procExists = true)
    (hst : fs.status.failsB = false) (hcl : fs.cmdline.failsB = false)
    (hsm : fs.statm.failsB = false) (hcpu : cpuStepFails fs = false) :
    (∀ entries, fs.fd = FdSrc.ok entries →
      (get_proc_info fs).fd_count = some (FdCountVal.count entries.length) ∧
      ∃ l, (get_proc_info fs).fd_details = some l ∧ l.length ≤ 10 ∧
        ∀ p ∈ l, (p.1, Except.ok p.2) ∈ entries.take 10) ∧
    (∀ m, fs.fd = FdSrc.permDenied m →
      (get_proc_info fs).fd_count = some FdCountVal.permissionDenied) := by
  constructor
  · intro entries hfd
    have hfdB : fs.fd.listFailsB = false := by rw [hfd]; rfl
    have hchain := collectChain_eq fs hst hcl hsm hcpu hfdB
    have hnone : (collectChain fs).2 = none := by rw [hchain]; exact stepIo_err fs _
    rw [get_proc_info_of_chain_ok fs h1 h2 hnone, hchain]
    constructor
    · rw [(stepIo_keeps fs _).2.2.1]
      simp [stepFd, hfd]
    · refine ⟨(entries.take 10).filterMap (fun p =>
        match p.2 with
        | .ok t => some (p.1, t)
        | .error _ => none), ?_, ?_, ?_⟩
      · rw [(stepIo_keeps fs _).2.2.2]
        simp [stepFd, hfd]
      · exact le_trans (List.length_filterMap_le _ _) (List.length_take_le _ _)
      · intro p hp
        obtain ⟨a, ha, hfa⟩ := List.mem_filterMap.mp hp
        rcases a with ⟨n, tgt⟩
        rcases tgt with e | t
        · simp at hfa
        · obtain rfl := Option.some.inj hfa
          exact ha
  · intro m hfd
    have hfdB : fs.fd.listFailsB = false := by rw [hfd]; rfl
    have hchain := collectChain_eq fs hst hcl hsm hcpu hfdB
    have hnone : (collectChain fs).2 = none := by rw [hchain]; exact stepIo_err fs _
    rw [get_proc_info_of_chain_ok fs h1 h2 hnone, hchain]
    rw [(stepIo_keeps fs _).2.2.1]
    simp [stepFd, hfd]

/-- Witness for C9 at a concrete descriptor directory. -/
theorem C9_fd_count_details_witness :
    (get_proc_info c9fs).fd_count = some (FdCountVal.count 3) :=
  ((C9_fd_count_details c9fs rfl rfl rfl rfl rfl rfl).1 _ rfl).1

/-- C5 counterexample: with an existing, readable but empty `maps` source the
resolver returns the empty sequence, refuting the claim that it always
returns a non-empty sequence of lines. -/
theorem C5_resolver_counterexample : get_section_content c5fs "maps" = [] := by decide

/-- C5 (amended): the resolver never raises (it is total); an absent source
yields exactly the one-line "not available" placeholder, a failed read yields
the lines read so far plus an explicit error line (never silence), `cwd` and
`exe` always resolve to exactly one line; but the result is empty exactly
when the source exists and is readable and itself yields zero lines or
entries (possible for `maps`, `fd` and `limits`). -/
theorem C5_resolver_amended (fs : ProcFS) :
    (fs.maps = LineSrc.absent → get_section_content fs "maps" = ["maps not available"]) ∧
    (fs.fd = FdSrc.absent → get_section_content fs "fd" = ["fd not available"]) ∧
    (fs.limits = LineSrc.absent → get_section_content fs "limits" = ["limits not available"]) ∧
    (∀ got m, fs.maps = LineSrc.failing got m →
      get_section_content fs "maps" = got.map pyRstrip ++ ["Error reading maps: " ++ m]) ∧
    (∀ m, fs.fd = FdSrc.permDenied m →
      get_section_content fs "fd" = ["Error reading fd: " ++ m]) ∧
    (∀ m, fs.fd = FdSrc.failing m →
      get_section_content fs "fd" = ["Error reading fd: " ++ m]) ∧
    (∀ got m, fs.limits = LineSrc.failing got m →
      get_section_content fs "limits" = got.map pyRstrip ++ ["Error reading limits: " ++ m]) ∧
    (get_section_content fs "cwd").length = 1 ∧
    (get_section_content fs "exe").length = 1 ∧
    (∀ sid, sid ∈ ["maps", "fd", "cwd", "exe", "limits"] →
      (get_section_content fs sid = [] ↔
        (sid = "maps" ∧ fs.maps = LineSrc.ok []) ∨
        (sid = "fd" ∧ fs.fd = FdSrc.ok []) ∨
        (sid = "limits" ∧ fs.limits = LineSrc.ok []))) := by
  refine ⟨?_, ?_, ?_, ?_, ?_, ?_, ?_, ?_, ?_, ?_⟩
  · intro hm; simp [get_section_content, hm]
  · intro hm; simp [get_section_content, hm]
  · intro hm; simp [get_section_content, hm]
  · intro got m hm; simp [get_section_content, hm]
  · intro m hm; simp [get_section_content, hm]
  · intro m hm; simp [get_section_content, hm]
  · intro got m hm; simp [get_section_content, hm]
  · rcases hc : fs.cwd with m | p <;> simp [get_section_content, hc]
  · rcases hc : fs.exe with m | p <;> simp [get_section_content, hc]
  · intro sid hsid
    fin_cases hsid
    · rcases hm : fs.maps with _ | ⟨got, m⟩ | lines <;> simp [get_section_content, hm]
    · rcases hm : fs.fd with _ | m | m | entries <;> simp [get_section_content, hm]
    · rcases hm : fs.cwd with m | p <;> simp [get_section_content, hm]
    · rcases hm : fs.exe with m | p <;> simp [get_section_content, hm]
    · rcases hm : fs.limits with _ | ⟨got, m⟩ | lines <;> simp [get_section_content, hm]

/-- Witness for C5 (amended) at the default filesystem with no sources. -/
theorem C5_resolver_amended_witness :
    get_section_content ({} : ProcFS) "maps" = ["maps not available"] :=
  (C5_resolver_amended {}).1 rfl

/-- With five sections of non-empty content, one advanced-info key step
preserves the scroll invariant. -/
theorem advStep_inv (lens : List ℤ) (hlen : lens.length = 5)
    (hpos : ∀ x ∈ lens, 1 ≤ x) (s : AdvState) (hs : advInv lens s) (k : AdvKey) :
    advInv lens (advStep lens s k) := by
  obtain ⟨hsel, h0, h1⟩ := hs
  have hget : ∀ j, j < 5 → 1 ≤ lens.getD j 0 := by
    intro j hj
    have hj' : j < lens.length := by rw [hlen]; exact hj
    rw [List.getD_eq_getElem lens 0 hj']
    exact hpos _ (List.getElem_mem hj')
  have hlen5 : adv_sections.length = 5 := rfl
  cases k
  case up =>
    by_cases h : 0 < s.selected
    · simp only [advStep, if_pos h]
      unfold advInv
      dsimp only
      have := hget (s.selected - 1) (by omega)
      exact ⟨by omega, le_refl 0, by omega⟩
    · simp only [advStep, if_neg h]
      exact ⟨hsel, h0, h1⟩
  case down =>
    by_cases h : s.selected < adv_sections.length - 1
    · simp only [advStep, if_pos h]
      unfold advInv
      dsimp only
      rw [hlen5] at h
      have := hget (s.selected + 1) (by omega)
      exact ⟨by omega, le_refl 0, by omega⟩
    · simp only [advStep, if_neg h]
      exact ⟨hsel, h0, h1⟩
  case toggle =>
    simp only [advStep]
    unfold advInv
    dsimp only
    have := hget s.selected hsel
    exact ⟨hsel, le_refl 0, by omega⟩
  case pgdn =>
    by_cases h : s.collapsed.getD s.selected false = false
    · simp only [advStep, if_pos h]
      unfold advInv
      dsimp only
      have := hget s.selected hsel
      refine ⟨hsel, le_min (by omega) (by omega), min_le_right _ _⟩
    · simp only [advStep, if_neg h]
      exact ⟨hsel, h0, h1⟩
  case pgup =>
    by_cases h : s.collapsed.getD s.selected false = false
    · simp only [advStep, if_pos h]
      unfold advInv
      dsimp only
      have := hget s.selected hsel
      exact ⟨hsel, le_max_left _ _, max_le (by omega) (by omega)⟩
    · simp only [advStep, if_neg h]
      exact ⟨hsel, h0, h1⟩
  case quitKey => exact ⟨hsel, h0, h1⟩
  case other => exact ⟨hsel, h0, h1⟩

/-- The scroll invariant is preserved along any key sequence. -/
theorem advFold_inv (lens : List ℤ) (hlen : lens.length = 5)
    (hpos : ∀ x ∈ lens, 1 ≤ x) :
    ∀ (keys : List AdvKey) (s : AdvState), advInv lens s →
      advInv lens (keys.foldl (advStep lens) s)
  | [], _, hs => hs
  | k :: ks, s, hs =>
    advFold_inv lens hlen hpos ks (advStep lens s k) (advStep_inv lens hlen hpos s hs k)

/-- C4 counterexample: entering the advanced-info screen on a process whose
selected section has empty content and pressing page-down drives the scroll
offset to -1, a negative offset outside the claimed range. -/
theorem C4_scroll_counterexample :
    (runAdv (advMaxLines c4fs) [AdvKey.pgdn]).scroll = -1 ∧
    (runAdv (advMaxLines c4fs) [AdvKey.pgdn]).scroll < 0 := by
  decide

/-- C4 (amended): provided every section's content is non-empty, the scroll
offset stays within `0 .. content_length - 1` of the selected section for
every key sequence; and unconditionally, the offset is reset to zero on every
selection change and on every collapse toggle. -/
theorem C4_scroll_amended (lens : List ℤ) (hlen : lens.length = 5)
    (hpos : ∀ x ∈ lens, 1 ≤ x) (keys : List AdvKey) :
    (0 ≤ (runAdv lens keys).scroll ∧
      (runAdv lens keys).scroll ≤ lens.getD (runAdv lens keys).selected 0 - 1) ∧
    (∀ s k, (advStep lens s k).selected ≠ s.selected → (advStep lens s k).scroll = 0) ∧
    (∀ s, (advStep lens s AdvKey.toggle).scroll = 0) := by
  refine ⟨?_, ?_, ?_⟩
  · have hinit : advInv lens advInit := by
      unfold advInv advInit
      dsimp only
      refine ⟨by omega, le_refl 0, ?_⟩
      have h0 : (0 : ℕ) < lens.length := by omega
      rw [List.getD_eq_getElem lens 0 h0]
      have := hpos _ (List.getElem_mem h0)
      omega
    have h := advFold_inv lens hlen hpos keys advInit hinit
    exact ⟨h.2.1, h.2.2⟩
  · intro s k hk
    cases k
    case up =>
      by_cases h : 0 < s.selected
      · simp [advStep, if_pos h]
      · exfalso; exact hk (by simp [advStep, if_neg h])
    case down =>
      by_cases h : s.selected < adv_sections.length - 1
      · simp [advStep, if_pos h]
      · exfalso; exact hk (by simp [advStep, if_neg h])
    case toggle => simp [advStep]
    case pgdn =>
      exfalso
      apply hk
      simp only [advStep]
      split <;> rfl
    case pgup =>
      exfalso
      apply hk
      simp only [advStep]
      split <;> rfl
    case quitKey => exact absurd rfl hk
    case other => exact absurd rfl hk
  · intro s
    simp [advStep]

/-- Witness for C4 (amended): five one-line sections, one page-down. -/
theorem C4_scroll_amended_witness :
    0 ≤ (runAdv [1, 1, 1, 1, 1] [AdvKey.pgdn]).scroll ∧
    (runAdv [1, 1, 1, 1, 1] [AdvKey.pgdn]).scroll ≤
      [(1 : ℤ), 1, 1, 1, 1].getD (runAdv [1, 1, 1, 1, 1] [AdvKey.pgdn]).selected 0 - 1 :=
  (C4_scroll_amended [1, 1, 1, 1, 1] rfl (by decide) [AdvKey.pgdn]).1

/-- C1: "Exit" sits at index 1 of the menu, but the `Enter` handler only
returns the exit result for selection index 2, which no key sequence can
reach (from indices 0 and 1 every key keeps the selection at most 1).
Pressing Enter with "Exit" selected therefore takes no action at all,
contradicting the specified behaviour that it unwinds the stack and exits. -/
theorem C1_enter_on_exit_item_ignored :
    menu_items.getD 1 "" = "Exit" ∧
    show_main_menu_step 1 MenuKey.enter = (1, MenuAction.stay) ∧
    (allMenuKeys.all fun k =>
      decide ((show_main_menu_step 0 k).1 ≤ 1) && decide ((show_main_menu_step 1 k).1 ≤ 1)) =
      true := by
  decide

/-- C3: whenever a monitor session reaches the streaming loop and ends — by
target disappearance, operator interrupt, or subprocess error — the returned
tracer handle is no longer running: it was asked to terminate, and it was
force-killed exactly when it did not respond to terminate within the grace
period. -/
theorem C3_monitor_cleanup (si te : Bool) (sp : Option Tracer) (events : List MonEvent)
    (e : SessionEnd) (t : Tracer) (m : TermMethod)
    (h : monitor_io_streams si te sp events = some (MonOutcome.session e t m)) :
    t.running = false ∧ (m = TermMethod.forced ↔ t.respondsToTerminate = false) := by
  unfold monitor_io_streams at h
  cases si
  · simp at h
  · cases te
    · simp at h
    · simp only [Bool.true_eq_false, if_false] at h
      cases sp with
      | none => simp at h
      | some t0 =>
        rcases hr : runStreamLoop events with _ | eEnd
        · rw [hr] at h; simp at h
        · rw [hr] at h
          dsimp only at h
          unfold cleanupTracer at h
          by_cases hres : t0.respondsToTerminate = true
          · rw [if_pos hres] at h
            simp only [Option.some.injEq, MonOutcome.session.injEq] at h
            obtain ⟨hE, hT, hM⟩ := h
            subst hT
            subst hM
            exact ⟨rfl, by simp [hres]⟩
          · rw [if_neg hres] at h
            simp only [Option.some.injEq, MonOutcome.session.injEq] at h
            obtain ⟨hE, hT, hM⟩ := h
            subst hT
            subst hM
            have hres' : t0.respondsToTerminate = false := by
              revert hres
              cases t0.respondsToTerminate <;> simp
            exact ⟨rfl, by simp [hres']⟩

/-- Witness for C3: a session that ends because the target vanished, with a
tracer that responds to terminate. -/
theorem C3_monitor_cleanup_witness :
    (⟨false, true⟩ : Tracer).running = false ∧
    (TermMethod.graceful = TermMethod.forced ↔
      (⟨false, true⟩ : Tracer).respondsToTerminate = false) :=
  C3_monitor_cleanup true true (some ⟨true, true⟩) [MonEvent.targetGone]
    SessionEnd.detached ⟨false, true⟩ TermMethod.graceful rfl
